import Mathlib

/-!
# Verification of the Allwinner D1 internal LDO regulator driver

A shallow embedding of `drivers/regulator/sun20i-regulator.c`.

The driver exposes two rail sets (analog LDOs and system LDOs), each a
list of regulator descriptors over one shared 32-bit register.  The
analog rails use the regulator core's linear-ladder helpers; the system
rails use a driver-local `list_voltage` with a rounding correction for a
non-integral (40000/3 µV) step.  Register updates are masked
read-modify-write operations through a regmap.

C machine integers are modelled as `Nat` (all voltages and register
values fit far below 2^31, so unsigned/int overflow never occurs on the
values the driver manipulates; register words are reduced through the
explicit 32-bit mask where the hardware would truncate).  Fallible C
functions returning `-EINVAL`-style codes are modelled with `Except`.
-/

/-- Error results of the regulator operations (`-EINVAL` in the C code). -/
inductive RegError where
  | OutOfRange
  deriving DecidableEq, Repr

deriving instance DecidableEq for Except

/-- `GENMASK(h, l)`: the mask with bits `l..h` (inclusive) set. -/
def GENMASK (h l : Nat) : Nat := 2 ^ (h + 1) - 2 ^ l

/-- `BIT(n)`: the mask with only bit `n` set. -/
def BIT (n : Nat) : Nat := 2 ^ n

/-- All 32 bits set: the width of the shared register word. -/
def U32_MASK : Nat := 2 ^ 32 - 1

def SUN20I_POWER_REG : Nat := 0x348

def SUN20I_SYS_LDO_CTRL_REG : Nat := 0x150

/-- Which `regulator_ops` table a descriptor points at: the analog LDOs
use the regulator core's linear helpers, the system LDOs use the
driver-local fractional-step `list_voltage`. -/
inductive LdoOps where
  | analog
  | system
  deriving DecidableEq, Repr

/-- One `struct regulator_desc` entry, restricted to the fields this
driver sets.  `enable_reg`/`enable_mask` are `Option` because the system
LDO descriptors leave them unset (no software enable control). -/
structure RegulatorDesc where
  name : String
  supply_name : String
  of_match : String
  ops : LdoOps
  n_voltages : Nat
  min_uV : Nat
  uV_step : Nat
  vsel_reg : Nat
  vsel_mask : Nat
  enable_reg : Option Nat
  enable_mask : Option Nat
  deriving DecidableEq, Repr

/-- Modelled from the spec: the regulator core helper
`regulator_list_voltage_linear` (referenced by
`sun20i_d1_analog_ldo_ops` but not part of `src/`).  Per the spec's
LinearLadder contract: `Voltage(selector) = min_uV + step_uV × selector`,
exact, failing with `OutOfRange` for `selector ≥ n_codes`. -/
def regulator_list_voltage_linear (desc : RegulatorDesc) (selector : Nat) :
    Except RegError Nat :=
  if selector ≥ desc.n_voltages then
    .error .OutOfRange
  else
    .ok (desc.min_uV + desc.uV_step * selector)

/-- `sun20i_d1_system_ldo_list_voltage`: the driver's modified
`list_voltage` for the non-integral µV step.  Mirrors the C body:
reject `selector >= n_voltages`, compute the naive
`min_uV + uV_step * selector`, then add the rounding correction
`(selector + 1 + (min_uV % 4)) / 3`. -/
def sun20i_d1_system_ldo_list_voltage (desc : RegulatorDesc) (selector : Nat) :
    Except RegError Nat :=
  if selector ≥ desc.n_voltages then
    .error .OutOfRange
  else
    let uV := desc.min_uV + desc.uV_step * selector
    .ok (uV + ((selector + 1 + desc.min_uV % 4) / 3))

/-- Dispatch through the descriptor's ops table, as the regulator core
does with `desc->ops->list_voltage`. -/
def voltage_of (desc : RegulatorDesc) (selector : Nat) : Except RegError Nat :=
  match desc.ops with
  | .analog => regulator_list_voltage_linear desc selector
  | .system => sun20i_d1_system_ldo_list_voltage desc selector

/-- The voltage at an in-range selector, as a plain number (0 for an
out-of-range selector, which never occurs where this is used). -/
def voltageVal (desc : RegulatorDesc) (selector : Nat) : Nat :=
  match voltage_of desc selector with
  | .ok v => v
  | .error _ => 0

/-- `sun20i_d1_analog_ldo_descs[0]`. -/
def aldo_desc : RegulatorDesc :=
  { name := "aldo"
    supply_name := "vdd33"
    of_match := "aldo"
    ops := .analog
    n_voltages := 8
    min_uV := 1650000
    uV_step := 50000
    vsel_reg := SUN20I_POWER_REG
    vsel_mask := GENMASK 14 12
    enable_reg := some SUN20I_POWER_REG
    enable_mask := some (BIT 31) }

/-- `sun20i_d1_analog_ldo_descs[1]`. -/
def hpldo_desc : RegulatorDesc :=
  { name := "hpldo"
    supply_name := "hpldoin"
    of_match := "hpldo"
    ops := .analog
    n_voltages := 8
    min_uV := 1650000
    uV_step := 50000
    vsel_reg := SUN20I_POWER_REG
    vsel_mask := GENMASK 10 8
    enable_reg := some SUN20I_POWER_REG
    enable_mask := some (BIT 30) }

/-- `sun20i_d1_system_ldo_descs[0]`. -/
def ldoa_desc : RegulatorDesc :=
  { name := "ldoa"
    supply_name := "ldo-in"
    of_match := "ldoa"
    ops := .system
    n_voltages := 32
    min_uV := 1600000
    uV_step := 13333
    vsel_reg := SUN20I_SYS_LDO_CTRL_REG
    vsel_mask := GENMASK 7 0
    enable_reg := none
    enable_mask := none }

/-- `sun20i_d1_system_ldo_descs[1]`. -/
def ldob_desc : RegulatorDesc :=
  { name := "ldob"
    supply_name := "ldo-in"
    of_match := "ldob"
    ops := .system
    n_voltages := 64
    min_uV := 1166666
    uV_step := 13333
    vsel_reg := SUN20I_SYS_LDO_CTRL_REG
    vsel_mask := GENMASK 15 8
    enable_reg := none
    enable_mask := none }

def sun20i_d1_analog_ldo_descs : List RegulatorDesc := [aldo_desc, hpldo_desc]

def sun20i_d1_system_ldo_descs : List RegulatorDesc := [ldoa_desc, ldob_desc]

/-- Every descriptor defined by the driver, across both rail sets. -/
def allDescs : List RegulatorDesc :=
  sun20i_d1_analog_ldo_descs ++ sun20i_d1_system_ldo_descs

/-- Round `x / 3` to the nearest integer (the true step 40000/3 never
lands exactly on a half, since 3 is odd, so nearest is unambiguous).
Standard half-up rounding of a quotient: `round(x/3) = (2x + 3) / 6`. -/
def roundDiv3 (x : Nat) : Nat := (2 * x + 3) / 6

/-- Modelled from the spec: `selector_for`, the voltage-to-selector map
(`regulator_map_voltage_ascend` for the system LDOs and
`regulator_map_voltage_linear` for the analog LDOs are regulator core
helpers, not part of `src/`).  Per the spec: return the smallest
selector `code` such that `voltage_of(rail, code) ≥ target_uV`
(ascending nearest-above search), or fail with `OutOfRange` if no such
code exists.  `selector_for_scan` is the ascending scan starting at
`code`, with enough fuel to reach `n_codes`. -/
def selector_for_scan (desc : RegulatorDesc) (target : Nat) :
    Nat → Nat → Except RegError Nat
  | _, 0 => .error .OutOfRange
  | code, fuel + 1 =>
    if target ≤ voltageVal desc code then .ok code
    else selector_for_scan desc target (code + 1) fuel

/-- Modelled from the spec: see `selector_for_scan`. -/
def selector_for (desc : RegulatorDesc) (target : Nat) : Except RegError Nat :=
  selector_for_scan desc target 0 desc.n_voltages

/-- Modelled from the spec: `regmap_update_bits` (regmap core, not part
of `src/`) — the Register Access Port's masked read-modify-write:
replace only the masked bits of the 32-bit word `orig` with the
corresponding bits of `val`, leaving all other bits unchanged. -/
def regmap_update_bits (orig mask val : Nat) : Nat :=
  (orig &&& (U32_MASK ^^^ mask)) ||| (val &&& mask)

/-- Result of `nvmem_cell_read_u8` on the `bg_trim` cell: a byte, or a
negative errno (modelled abstractly as an error payload). -/
inductive NvmemResult where
  | ok (b : Nat)
  | err (e : Int)
  deriving DecidableEq, Repr

/-- Errors surfaced by init / probe: a propagated nvmem errno, or a
failure of `devm_regulator_register`. -/
inductive ProbeError where
  | nvmem (e : Int)
  | registerFailed (e : Int)
  deriving DecidableEq, Repr

/-- `sun20i_d1_analog_ldos_init`: read the `bg_trim` byte from nvmem; on
error propagate it; if the byte is zero substitute the default `0x19`
(900 mV); write the resulting byte into bits 7..0 of the POWER register.
Takes the nvmem read outcome and the register's previous value;
returns the register's new value. -/
def sun20i_d1_analog_ldos_init (read : NvmemResult) (old : Nat) :
    Except ProbeError Nat :=
  match read with
  | .err e => .error (.nvmem e)
  | .ok b =>
    let bg_trim := if b = 0 then 0x19 else b
    .ok (regmap_update_bits old (GENMASK 7 0) bg_trim)

/-- `struct sun20i_regulator_data`: the optional init hook plus the
descriptor list (`ndescs` is the list's length). -/
structure Sun20iRegulatorData where
  init : Option (NvmemResult → Nat → Except ProbeError Nat)
  descs : List RegulatorDesc

def sun20i_d1_analog_ldos : Sun20iRegulatorData :=
  { init := some sun20i_d1_analog_ldos_init
    descs := sun20i_d1_analog_ldo_descs }

def sun20i_d1_system_ldos : Sun20iRegulatorData :=
  { init := none
    descs := sun20i_d1_system_ldo_descs }

/-- One `struct of_device_id` entry of the match table (the C array's
zero terminator is implicit in the list's end). -/
structure OfDeviceId where
  compatible : String
  data : Sun20iRegulatorData

def sun20i_regulator_of_match : List OfDeviceId :=
  [ { compatible := "allwinner,sun20i-d1-analog-ldos"
      data := sun20i_d1_analog_ldos },
    { compatible := "allwinner,sun20i-d1-system-ldos"
      data := sun20i_d1_system_ldos } ]

/-- The registration loop of `sun20i_regulator_probe`: register each
descriptor in order with `devm_regulator_register` (abstracted as
`register`), stopping at the first failure.  Returns the names of the
rails registered so far together with the loop's outcome. -/
def registerAll (register : RegulatorDesc → Except Int Unit) :
    List RegulatorDesc → List String × Except ProbeError Unit
  | [] => ([], .ok ())
  | d :: rest =>
    match register d with
    | .error e => ([], .error (.registerFailed e))
    | .ok () =>
      let (names, r) := registerAll register rest
      (d.name :: names, r)

/-- `sun20i_regulator_probe`, for a device that matched `data`: run
`data->init` when present (propagating its error before registering
anything), then register every descriptor.  `read` is the nvmem read
outcome consumed by the init hook, `old` the initial POWER register
value, `register` the outcome of `devm_regulator_register` per
descriptor.  Returns the registered rail names and the probe result. -/
def sun20i_regulator_probe (data : Sun20iRegulatorData) (read : NvmemResult)
    (old : Nat) (register : RegulatorDesc → Except Int Unit) :
    List String × Except ProbeError Unit :=
  match data.init with
  | some ini =>
    match ini read old with
    | .error e => ([], .error e)
    | .ok _ => registerAll register data.descs
  | none => registerAll register data.descs

/-- The register/mask fields a descriptor owns: its vsel field and, when
present, its enable field. -/
def railMasks (desc : RegulatorDesc) : List Nat :=
  desc.vsel_mask ::
    (match desc.enable_mask with
     | some m => [m]
     | none => [])

/-! ## Helper lemmas -/

/-- A function that increases at every consecutive step below `n` is
strictly increasing on `[0, n)`. -/
lemma chain_lt {f : Nat → Nat} {n : Nat}
    (h : ∀ i, i + 1 < n → f i < f (i + 1)) :
    ∀ c₁ c₂, c₁ < c₂ → c₂ < n → f c₁ < f c₂ := by
  intro c₁ c₂
  induction c₂ with
  | zero => intro h1 _; omega
  | succ m ih =>
    intro h1 h2
    rcases Nat.lt_or_ge c₁ m with hc | hc
    · exact Nat.lt_trans (ih hc (Nat.lt_of_succ_lt h2)) (h m h2)
    · have heq : c₁ = m := by omega
      subst heq
      exact h c₁ h2

/-- What a successful ascending scan guarantees: the hit lies in the
scanned window, its voltage reaches the target, and every selector
strictly before it inside the window falls short. -/
lemma selector_for_scan_ok {d : RegulatorDesc} {t : Nat} :
    ∀ fuel code r, selector_for_scan d t code fuel = .ok r →
      code ≤ r ∧ r < code + fuel ∧ t ≤ voltageVal d r ∧
      ∀ x, code ≤ x → x < r → voltageVal d x < t := by
  intro fuel
  induction fuel with
  | zero =>
    intro code r h
    simp [selector_for_scan] at h
  | succ n ih =>
    intro code r h
    by_cases ht : t ≤ voltageVal d code
    · simp only [selector_for_scan, if_pos ht, Except.ok.injEq] at h
      subst h
      exact ⟨Nat.le_refl _, by omega, ht, fun x hx1 hx2 => by omega⟩
    · simp only [selector_for_scan, if_neg ht] at h
      obtain ⟨h1, h2, h3, h4⟩ := ih (code + 1) r h
      refine ⟨by omega, by omega, h3, ?_⟩
      intro x hx1 hx2
      rcases Nat.eq_or_lt_of_le hx1 with heq | hlt
      · subst heq
        exact Nat.lt_of_not_le ht
      · exact h4 x hlt hx2

/-- When every selector in the scanned window falls short of the target,
the ascending scan runs out and reports `OutOfRange`. -/
lemma selector_for_scan_exhausted {d : RegulatorDesc} {t : Nat} :
    ∀ fuel code, (∀ x, code ≤ x → x < code + fuel → voltageVal d x < t) →
      selector_for_scan d t code fuel = .error .OutOfRange := by
  intro fuel
  induction fuel with
  | zero =>
    intro code _
    simp [selector_for_scan]
  | succ n ih =>
    intro code hall
    have hc : voltageVal d code < t := hall code (Nat.le_refl _) (by omega)
    simp only [selector_for_scan, if_neg (by omega : ¬ t ≤ voltageVal d code)]
    exact ih (code + 1) (fun x h1 h2 => hall x (by omega) (by omega))

/-- `selector_for` success facts: the returned code is in range, meets
the target, and nothing below it does. -/
lemma selector_for_ok_spec (d : RegulatorDesc) (t r : Nat)
    (h : selector_for d t = .ok r) :
    r < d.n_voltages ∧ t ≤ voltageVal d r ∧
      ∀ x, x < r → voltageVal d x < t := by
  obtain ⟨h1, h2, h3, h4⟩ := selector_for_scan_ok d.n_voltages 0 r h
  exact ⟨by omega, h3, fun x hx => h4 x (Nat.zero_le x) hx⟩

/-- When every in-range selector falls short of the target,
`selector_for` fails with `OutOfRange`. -/
lemma selector_for_out_of_range (d : RegulatorDesc) (t : Nat)
    (h : ∀ x, x < d.n_voltages → voltageVal d x < t) :
    selector_for d t = .error .OutOfRange :=
  selector_for_scan_exhausted d.n_voltages 0 (fun x _ hx => h x (by omega))

/-- In a masked read-modify-write, bits outside the written mask keep
their old value: reading through any mask `m₂` disjoint from the written
mask `m₁` (with `m₂` inside the 32-bit word) sees the old contents. -/
lemma regmap_update_bits_frame {m₁ m₂ : Nat} (hdisj : m₁ &&& m₂ = 0)
    (hm₂ : m₂ &&& U32_MASK = m₂) (old v : Nat) :
    regmap_update_bits old m₁ v &&& m₂ = old &&& m₂ := by
  apply Nat.eq_of_testBit_eq
  intro i
  have hd := congrArg (fun x => Nat.testBit x i) hdisj
  have h2 := congrArg (fun x => Nat.testBit x i) hm₂
  simp only [Nat.testBit_and, Nat.zero_testBit] at hd h2
  simp only [regmap_update_bits, Nat.testBit_and, Nat.testBit_or,
    Nat.testBit_xor]
  cases hm1i : m₁.testBit i <;> cases hm2i : m₂.testBit i <;>
    simp_all

/-- Reading back the field just written through its own mask yields the
masked bits of the written value. -/
lemma regmap_update_bits_read {m : Nat} (hm : m &&& U32_MASK = m)
    (old v : Nat) :
    regmap_update_bits old m v &&& m = v &&& m := by
  apply Nat.eq_of_testBit_eq
  intro i
  have h2 := congrArg (fun x => Nat.testBit x i) hm
  simp only [Nat.testBit_and] at h2
  simp only [regmap_update_bits, Nat.testBit_and, Nat.testBit_or,
    Nat.testBit_xor]
  cases hmi : m.testBit i <;> simp_all

/-! ## Claims -/

/-- C1, counterexample.  The claimed correction term uses `min_uV mod 3`,
but the source computes `(selector + 1 + (min_uV % 4)) / 3`.  On the
"ldoa" rail (min_uV = 1600000, so min_uV mod 3 = 1 while min_uV mod 4 =
0) at selector 1 the driver returns 1613333 µV, while the claimed
formula yields 1613334 µV. -/
theorem C1_mod3_counterexample :
    voltage_of ldoa_desc 1 = .ok 1613333 ∧
    ldoa_desc.min_uV + ldoa_desc.uV_step * 1
      + (1 + 1 + ldoa_desc.min_uV % 3) / 3 = 1613334 ∧
    voltage_of ldoa_desc 1 ≠
      .ok (ldoa_desc.min_uV + ldoa_desc.uV_step * 1
        + (1 + 1 + ldoa_desc.min_uV % 3) / 3) := by
  decide

/-- C1, amended.  For every fractional-ladder rail and every selector
code in range, the voltage returned equals the naive
`min_uV + step_uV * code` plus the correction
`(code + 1 + (min_uV mod 4)) / 3` (integer division): the source's
correction reduces `min_uV` modulo 4, not modulo 3. -/
theorem C1_correction_mod4 :
    ∀ d ∈ sun20i_d1_system_ldo_descs, ∀ c < d.n_voltages,
      voltage_of d c =
        .ok (d.min_uV + d.uV_step * c + (c + 1 + d.min_uV % 4) / 3) := by
  decide

/-- C1 witness: the amended formula evaluated at the "ldoa" rail,
selector 1. -/
theorem C1_correction_mod4_witness :
    voltage_of ldoa_desc 1 =
      .ok (ldoa_desc.min_uV + ldoa_desc.uV_step * 1
        + (1 + 1 + ldoa_desc.min_uV % 4) / 3) :=
  C1_correction_mod4 ldoa_desc (by decide) 1 (by decide)

/-- C2.  On the "ldoa" rail (min_uV = 1600000, step_uV = 13333,
n_codes = 32): selector 0 yields exactly 1600000; consecutive selectors
yield strictly increasing voltages; and every code's voltage equals the
true 40000/3-µV-per-step ladder value rounded to the nearest integer,
i.e. `round((3 * 1600000 + 40000 * c) / 3)`. -/
theorem C2_ldoa_true_ladder :
    voltage_of ldoa_desc 0 = .ok 1600000 ∧
    (∀ c, c < 31 → voltageVal ldoa_desc c < voltageVal ldoa_desc (c + 1)) ∧
    (∀ c, c < 32 →
      voltage_of ldoa_desc c = .ok (roundDiv3 (3 * 1600000 + 40000 * c))) := by
  refine ⟨by decide, by decide, by decide⟩

/-- C2 witness: the rounded true-ladder value at selector 5. -/
theorem C2_ldoa_true_ladder_witness :
    voltage_of ldoa_desc 5 = .ok (roundDiv3 (3 * 1600000 + 40000 * 5)) :=
  C2_ldoa_true_ladder.2.2 5 (by decide)

/-- C3.  For every rail of the driver: `selector_for` inverts
`voltage_of` at every valid code (round-trip law); a successful
`selector_for` returns the smallest in-range code whose voltage reaches
the target; and a target above the ladder's maximum voltage fails with
`OutOfRange`. -/
theorem C3_selector_for_roundtrip :
    ∀ d ∈ allDescs,
      (∀ c, c < d.n_voltages →
        selector_for d (voltageVal d c) = .ok c) ∧
      (∀ t r, selector_for d t = .ok r →
        r < d.n_voltages ∧ t ≤ voltageVal d r ∧
          ∀ x, x < r → voltageVal d x < t) ∧
      (∀ t, voltageVal d (d.n_voltages - 1) < t →
        selector_for d t = .error .OutOfRange) := by
  intro d hd
  have hmem : d = aldo_desc ∨ d = hpldo_desc ∨ d = ldoa_desc ∨ d = ldob_desc := by
    simpa [allDescs, sun20i_d1_analog_ldo_descs,
      sun20i_d1_system_ldo_descs] using hd
  refine ⟨?_, fun t r h => selector_for_ok_spec d t r h, ?_⟩
  · rcases hmem with rfl | rfl | rfl | rfl <;> decide
  · intro t ht
    apply selector_for_out_of_range
    intro x hx
    have hstep : ∀ i, i < d.n_voltages - 1 →
        voltageVal d i < voltageVal d (i + 1) := by
      rcases hmem with rfl | rfl | rfl | rfl <;> decide
    have hmono := @chain_lt (voltageVal d) d.n_voltages
      (fun i hi => hstep i (by omega))
    rcases Nat.eq_or_lt_of_le (by omega : x ≤ d.n_voltages - 1) with heq | hlt
    · rw [heq]; exact ht
    · exact Nat.lt_trans (hmono x (d.n_voltages - 1) hlt (by omega)) ht

/-- C3 witness: round-trip at the "ldob" rail, selector 7. -/
theorem C3_selector_for_roundtrip_witness :
    selector_for ldob_desc (voltageVal ldob_desc 7) = .ok 7 :=
  (C3_selector_for_roundtrip ldob_desc (by decide)).1 7 (by decide)

/-- C4.  For every rail of the driver (linear and fractional), the
voltage returned by `voltage_of` is strictly increasing in the selector
code over `[0, n_codes)`. -/
theorem C4_strictly_increasing :
    ∀ d ∈ allDescs, ∀ c₁ c₂, c₁ < c₂ → c₂ < d.n_voltages →
      ∀ v₁ v₂, voltage_of d c₁ = .ok v₁ → voltage_of d c₂ = .ok v₂ →
        v₁ < v₂ := by
  intro d hd c₁ c₂ hlt hn v₁ v₂ h1 h2
  have hmem : d = aldo_desc ∨ d = hpldo_desc ∨ d = ldoa_desc ∨ d = ldob_desc := by
    simpa [allDescs, sun20i_d1_analog_ldo_descs,
      sun20i_d1_system_ldo_descs] using hd
  have hstep : ∀ i, i < d.n_voltages - 1 →
      voltageVal d i < voltageVal d (i + 1) := by
    rcases hmem with rfl | rfl | rfl | rfl <;> decide
  have hvv := @chain_lt (voltageVal d) d.n_voltages
    (fun i hi => hstep i (by omega)) c₁ c₂ hlt hn
  simpa [voltageVal, h1, h2] using hvv

/-- C4 witness: codes 0 < 1 on the "ldob" rail. -/
theorem C4_strictly_increasing_witness :
    voltageVal ldob_desc 0 < voltageVal ldob_desc 1 :=
  C4_strictly_increasing ldob_desc (by decide) 0 1 (by decide) (by decide)
    (voltageVal ldob_desc 0) (voltageVal ldob_desc 1) (by decide) (by decide)

/-- C5.  For every rail of the driver, `voltage_of` fails with
`OutOfRange` for every code at or beyond `n_codes`, and returns a
voltage for every code strictly below `n_codes`. -/
theorem C5_voltage_of_range :
    ∀ d ∈ allDescs, ∀ c,
      (d.n_voltages ≤ c → voltage_of d c = .error .OutOfRange) ∧
      (c < d.n_voltages → ∃ v, voltage_of d c = .ok v) := by
  intro d _ c
  constructor
  · intro h
    cases hops : d.ops <;>
      simp [voltage_of, hops, regulator_list_voltage_linear,
        sun20i_d1_system_ldo_list_voltage, h]
  · intro h
    cases hops : d.ops <;>
      simp [voltage_of, hops, regulator_list_voltage_linear,
        sun20i_d1_system_ldo_list_voltage, Nat.not_le.mpr h]

/-- C5 witness: code 32 (= n_codes) on the "ldoa" rail is rejected. -/
theorem C5_voltage_of_range_witness :
    voltage_of ldoa_desc 32 = .error .OutOfRange :=
  (C5_voltage_of_range ldoa_desc (by decide) 32).1 (by decide)

/-- C6.  The trim byte programmed into bits 7..0 of the POWER register
by the calibration hook is a function of the nvmem read result: a
successful read of zero programs the documented default 0x19 (900 mV);
a successful read of a non-zero byte `b` programs exactly `b`. -/
theorem C6_trim_value :
    ∀ old b new, b < 256 →
      sun20i_d1_analog_ldos_init (.ok b) old = .ok new →
      new &&& GENMASK 7 0 = if b = 0 then 0x19 else b := by
  intro old b new hb h
  simp only [sun20i_d1_analog_ldos_init, Except.ok.injEq] at h
  subst h
  rw [regmap_update_bits_read (by decide)]
  have hmask : GENMASK 7 0 = 2 ^ 8 - 1 := by decide
  have ht : (if b = 0 then 0x19 else b) < 2 ^ 8 := by split <;> omega
  rw [hmask]
  exact Nat.and_pow_two_sub_one_of_lt_two_pow ht

/-- C6 witness: an unprovisioned (zero) read programs 0x19 into the
low byte, whatever the register previously held. -/
theorem C6_trim_value_witness :
    (0xFFFFFF19 : Nat) &&& GENMASK 7 0 = if (0 : Nat) = 0 then 0x19 else 0 :=
  C6_trim_value 0xFFFFFFFF 0 0xFFFFFF19 (by decide) (by decide)

/-- C7.  When the calibration read fails, probing the analog rail set
propagates that error and registers no rail at all: bring-up is
all-or-nothing. -/
theorem C7_calibration_failure_aborts (e : Int) (old : Nat)
    (register : RegulatorDesc → Except Int Unit) :
    sun20i_regulator_probe sun20i_d1_analog_ldos (.err e) old register =
      ([], .error (.nvmem e)) :=
  rfl

/-- C8.  Any two distinct rail descriptors of the same set have
pairwise-disjoint vsel/enable masks, and a masked read-modify-write
through one rail's mask leaves every bit under the other rail's masks
unchanged. -/
theorem C8_disjoint_fields_frame :
    ∀ dset ∈ [sun20i_d1_analog_ldo_descs, sun20i_d1_system_ldo_descs],
      ∀ d₁ ∈ dset, ∀ d₂ ∈ dset, d₁.name ≠ d₂.name →
        ∀ m₁ ∈ railMasks d₁, ∀ m₂ ∈ railMasks d₂,
          m₁ &&& m₂ = 0 ∧
          ∀ old v, regmap_update_bits old m₁ v &&& m₂ = old &&& m₂ := by
  intro dset hset d₁ hd₁ d₂ hd₂ hne m₁ hm₁ m₂ hm₂
  have hdisj : m₁ &&& m₂ = 0 := by
    have H : ∀ dset ∈ [sun20i_d1_analog_ldo_descs, sun20i_d1_system_ldo_descs],
        ∀ d₁ ∈ dset, ∀ d₂ ∈ dset, d₁.name ≠ d₂.name →
          ∀ m₁ ∈ railMasks d₁, ∀ m₂ ∈ railMasks d₂, m₁ &&& m₂ = 0 := by
      decide
    exact H dset hset d₁ hd₁ d₂ hd₂ hne m₁ hm₁ m₂ hm₂
  have hm₂u : m₂ &&& U32_MASK = m₂ := by
    have H : ∀ dset ∈ [sun20i_d1_analog_ldo_descs, sun20i_d1_system_ldo_descs],
        ∀ d ∈ dset, ∀ m ∈ railMasks d, m &&& U32_MASK = m := by
      decide
    exact H dset hset d₂ hd₂ m₂ hm₂
  exact ⟨hdisj, fun old v => regmap_update_bits_frame hdisj hm₂u old v⟩

/-- C8 witness: writing aldo's vsel field leaves hpldo's vsel bits of an
all-ones register unchanged. -/
theorem C8_disjoint_fields_frame_witness :
    regmap_update_bits 0xFFFFFFFF (GENMASK 14 12) 0 &&& GENMASK 10 8 =
      0xFFFFFFFF &&& GENMASK 10 8 :=
  (C8_disjoint_fields_frame sun20i_d1_analog_ldo_descs (by decide)
    aldo_desc (by decide) hpldo_desc (by decide) (by decide)
    (GENMASK 14 12) (by decide) (GENMASK 10 8) (by decide)).2 0xFFFFFFFF 0

/-- C9.  The configuration surface defines exactly two variants: the
analog set of two 50000-µV-step linear rails whose vsel and enable
fields all live in the POWER register, and the system set of two
fractional rails of 32 and 64 codes sharing the (different) system LDO
control register, with no enable field on either rail. -/
theorem C9_two_variants :
    sun20i_regulator_of_match.length = 2 ∧
    sun20i_regulator_of_match.map (fun e => e.compatible) =
      ["allwinner,sun20i-d1-analog-ldos", "allwinner,sun20i-d1-system-ldos"] ∧
    sun20i_regulator_of_match.map (fun e => e.data.descs) =
      [sun20i_d1_analog_ldo_descs, sun20i_d1_system_ldo_descs] ∧
    sun20i_d1_analog_ldos.descs.length = 2 ∧
    (∀ d ∈ sun20i_d1_analog_ldos.descs,
      d.ops = .analog ∧ d.uV_step = 50000 ∧
      d.enable_mask.isSome = true ∧
      d.vsel_reg = SUN20I_POWER_REG ∧
      d.enable_reg = some SUN20I_POWER_REG) ∧
    sun20i_d1_system_ldos.descs.length = 2 ∧
    sun20i_d1_system_ldos.descs.map (fun d => d.n_voltages) = [32, 64] ∧
    (∀ d ∈ sun20i_d1_system_ldos.descs,
      d.ops = .system ∧ d.vsel_reg = SUN20I_SYS_LDO_CTRL_REG ∧
      d.enable_mask = none ∧ d.enable_reg = none) ∧
    SUN20I_POWER_REG ≠ SUN20I_SYS_LDO_CTRL_REG := by
  refine ⟨rfl, rfl, rfl, rfl, by decide, rfl, rfl, by decide, by decide⟩

/-- C9 witness: the analog-set facts evaluated at the "aldo" rail. -/
theorem C9_two_variants_witness :
    aldo_desc.ops = .analog ∧ aldo_desc.uV_step = 50000 ∧
    aldo_desc.enable_mask.isSome = true ∧
    aldo_desc.vsel_reg = SUN20I_POWER_REG ∧
    aldo_desc.enable_reg = some SUN20I_POWER_REG :=
  C9_two_variants.2.2.2.2.1 aldo_desc (by decide)

/-- C10.  On the "ldob" rail (min_uV = 1166666, n_codes = 64), selector
0 yields 1166667 µV — one above the descriptor's min_uV — because the
correction `(0 + 1 + (1166666 % 4)) / 3 = 1`; so `voltage_of` at 0 does
not equal min_uV for this rail. -/
theorem C10_ldob_code0 :
    voltage_of ldob_desc 0 = .ok 1166667 ∧
    ldob_desc.min_uV = 1166666 ∧
    (0 + 1 + ldob_desc.min_uV % 4) / 3 = 1 ∧
    voltage_of ldob_desc 0 ≠ .ok ldob_desc.min_uV := by
  decide
